import Mathlib

/-!
Verification development for the trip-expense backend settlement engine
(`services/settlement.py`).  Monetary amounts are modelled as exact
rationals (`ℚ`); Python's `round` (banker's rounding) is modelled
exactly; dates and timestamps are integers (days resp. seconds).
The database tables relevant to the settlement engine are modelled as
explicit state records, and the finalizer is a state-passing function
with an explicit failure-injection parameter, mirroring the
commit/rollback structure of `record_stay_settlement`.
-/

namespace TripSettle

/-- Python's built-in `round` on a rational: nearest integer, ties to even
(banker's rounding). -/
def pyRound (x : ℚ) : ℤ :=
  if x - ⌊x⌋ = 1/2 then (if ⌊x⌋ % 2 = 0 then ⌊x⌋ else ⌊x⌋ + 1) else round x

/-- Python's `round(x, 2)`: round to two decimal places. -/
def pyRound2 (x : ℚ) : ℚ := (pyRound (x * 100) : ℚ) / 100

/-- A row of `family_details`: one participant family of a trip. -/
structure Family where
  id : ℤ
  family_name : String
  members_count : ℤ
deriving DecidableEq

/-- A row of `expenses`: a cost entry.  `date` is the (integer) day from the
text `date` column, `created_at` the insertion instant in seconds. -/
structure Expense where
  payer_family_id : ℤ
  amount : ℚ
  date : ℤ
  created_at : ℤ
deriving DecidableEq

/-- A row of `advances` (TRIP mode only): a direct transfer between families. -/
structure Advance where
  payer_family_id : ℤ
  receiver_family_id : ℤ
  amount : ℚ
deriving DecidableEq

/-- A row of `settlement_transactions`: an active recorded payment. -/
structure Txn where
  from_family_id : ℤ
  to_family_id : ℤ
  amount : ℚ
deriving DecidableEq

/-- A row of `stay_settlement_details` (per-family balances of a finalized
settlement).  `record_stay_settlement` always writes both columns, so they
are modelled as non-null; `COALESCE(adjusted_balance, balance, 0)` in the
readers therefore reads `adjusted_balance`. -/
structure SettlementDetail where
  family_id : ℤ
  balance : ℚ
  adjusted_balance : ℚ
deriving DecidableEq

/-- A row of `stay_settlements` together with its detail rows. -/
structure StoredSettlement where
  id : ℤ
  total_expense : ℤ
  total_members : ℤ
  per_head_cost : ℤ
  period_start : ℤ
  period_end : ℤ
  created_at : ℤ
  details : List SettlementDetail
deriving DecidableEq

/-- A row of `stay_carry_forward_log`. -/
structure CarryRow where
  previous_settlement_id : Option ℤ
  new_settlement_id : ℤ
  family_id : ℤ
  previous_balance : ℚ
  new_balance : ℚ
  delta : ℚ
deriving DecidableEq

/-- The mutable database state of one trip, as seen by the STAY settlement
engine: `settlements` is newest-first (the head is the row `ORDER BY id
DESC LIMIT 1` returns), `txns` are the active `settlement_transactions`,
`archive` is `settlement_transactions_archive` (tagged with the consuming
settlement id), `carry_log` is `stay_carry_forward_log`, `history` records
the settlement ids snapshotted into `stay_settlement_history`. -/
structure StayDB where
  settlements : List StoredSettlement
  txns : List Txn
  archive : List (ℤ × Txn)
  carry_log : List CarryRow
  history : List ℤ
  nextId : ℤ
deriving DecidableEq

/-- The most recent settlement of the trip (`ORDER BY id DESC LIMIT 1`). -/
def lastSettlement (db : StayDB) : Option StoredSettlement := db.settlements.head?

/- ===================== TRIP mode: `get_settlement` ===================== -/

/-- Input of `get_settlement` (TRIP mode, no date filter). -/
structure TripInput where
  families : List Family
  expenses : List Expense
  advances : List Advance
  txns : List Txn
deriving DecidableEq

def familyIds (fams : List Family) : List ℤ := fams.map Family.id

/-- Step 2 of `get_settlement`: an expense is added to `total_expense` only
when its payer is one of the trip's families. -/
def tripTotalExpense (inp : TripInput) : ℚ :=
  ((inp.expenses.filter
      (fun e => decide (e.payer_family_id ∈ familyIds inp.families))).map Expense.amount).sum

/-- `expense_balance[fid]` for a family id `fid` of the trip. -/
def tripPaid (inp : TripInput) (fid : ℤ) : ℚ :=
  ((inp.expenses.filter (fun e => decide (e.payer_family_id = fid))).map Expense.amount).sum

def tripTotalMembers (inp : TripInput) : ℤ :=
  (inp.families.map Family.members_count).sum

/-- Step 3: `per_head_cost = total_expense / total_members if total_members > 0
else 0.0`. -/
def tripPerHead (inp : TripInput) : ℚ :=
  if 0 < tripTotalMembers inp then tripTotalExpense inp / (tripTotalMembers inp : ℚ) else 0

/-- Step 4: `advance_balance[fid]` (gave → credit, took → debit). -/
def tripAdvance (inp : TripInput) (fid : ℤ) : ℚ :=
  ((inp.advances.filter (fun a => decide (a.payer_family_id = fid))).map Advance.amount).sum
  - ((inp.advances.filter (fun a => decide (a.receiver_family_id = fid))).map Advance.amount).sum

/-- Step 5: raw/net balance of a family. -/
def tripNet (inp : TripInput) (f : Family) : ℚ :=
  tripPaid inp f.id - f.members_count * tripPerHead inp + tripAdvance inp f.id

/-- Step 5B: adjustment from recorded settlement transactions
(`from` pays → `+amt`, `to` receives → `-amt`). -/
def tripTxnAdjust (inp : TripInput) (fid : ℤ) : ℚ :=
  ((inp.txns.filter (fun t => decide (t.from_family_id = fid))).map Txn.amount).sum
  - ((inp.txns.filter (fun t => decide (t.to_family_id = fid))).map Txn.amount).sum

def tripAdjusted (inp : TripInput) (f : Family) : ℚ :=
  tripNet inp f + tripTxnAdjust inp f.id

/- ================= Debt minimizer (both modes) ================= -/

/-- A working entry of the `debtors`/`creditors` lists. -/
structure Party where
  name : String
  bal : ℚ
deriving DecidableEq

/-- One emitted suggested settlement (`from`/`to`/`amount`); the amount is
`round(payment)`, a whole number. -/
structure Suggestion where
  src : String
  dst : String
  amount : ℤ
deriving DecidableEq

/-- Step 6 of `get_settlement`: debtors are families with adjusted balance
below `-0.5`, carrying `abs(adjusted_balance)`. -/
def tripDebtors (inp : TripInput) : List Party :=
  (inp.families.filter (fun f => decide (tripAdjusted inp f < -(1/2)))).map
    (fun f => ⟨f.family_name, |tripAdjusted inp f|⟩)

/-- Creditors are families with adjusted balance above `0.5`. -/
def tripCreditors (inp : TripInput) : List Party :=
  (inp.families.filter (fun f => decide ((1/2 : ℚ) < tripAdjusted inp f))).map
    (fun f => ⟨f.family_name, tripAdjusted inp f⟩)

/-- The inner loop of step 6: one debtor (owing `owed`) walks the creditor
list in order, paying `min(owed, c.bal)` to each creditor with a positive
remaining balance, and breaking once `owed ≤ 0`.  Returns the emitted
transactions and the updated creditor list. -/
def tripInner (dname : String) : ℚ → List Party → List Suggestion × List Party
  | _, [] => ([], [])
  | owed, c :: rest =>
    if owed ≤ 0 then ([], c :: rest)
    else if c.bal ≤ 0 then
      let r := tripInner dname owed rest
      (r.1, c :: r.2)
    else
      let payment := min owed c.bal
      if payment ≤ 0 then
        let r := tripInner dname owed rest
        (r.1, c :: r.2)
      else
        let r := tripInner dname (owed - payment) rest
        (⟨dname, c.name, pyRound payment⟩ :: r.1, ⟨c.name, c.bal - payment⟩ :: r.2)

/-- The outer loop of step 6 over all debtors; creditor balances persist
from one debtor to the next. -/
def tripOuter : List Party → List Party → List Suggestion × List Party
  | [], cs => ([], cs)
  | d :: ds, cs =>
    let r := tripInner d.name d.bal cs
    let r2 := tripOuter ds r.2
    (r.1 ++ r2.1, r2.2)

/-- The suggested settlements of `get_settlement`. -/
def tripTransactions (inp : TripInput) : List Suggestion :=
  (tripOuter (tripDebtors inp) (tripCreditors inp)).1

/-- Per-family output row of `get_settlement` (values rounded for output). -/
structure TripFamilyOut where
  family_id : ℤ
  family_name : String
  members_count : ℤ
  total_spent : ℤ
  raw_balance : ℤ
  balance : ℤ
  adjusted_balance : ℤ
deriving DecidableEq

structure TripResult where
  total_expense : ℤ
  total_members : ℤ
  per_head_cost : ℤ
  families : List TripFamilyOut
  suggested : List Suggestion
deriving DecidableEq

/-- `get_settlement` either reports `{"message": "No families found for this
trip."}` or returns the settlement payload. -/
inductive TripOutput where
  | noFamilies : TripOutput
  | ok : TripResult → TripOutput
deriving DecidableEq

def tripFamilyOut (inp : TripInput) (f : Family) : TripFamilyOut :=
  ⟨f.id, f.family_name, f.members_count, pyRound (tripPaid inp f.id),
   pyRound (tripNet inp f), pyRound (tripNet inp f), pyRound (tripAdjusted inp f)⟩

/-- `get_settlement(trip_id)` with no date filter. -/
def get_settlement (inp : TripInput) : TripOutput :=
  if inp.families = [] then .noFamilies
  else .ok
    { total_expense := pyRound (tripTotalExpense inp)
      total_members := tripTotalMembers inp
      per_head_cost := pyRound (tripPerHead inp)
      families := inp.families.map (tripFamilyOut inp)
      suggested := tripTransactions inp }

/- ============== STAY mode: `calculate_stay_settlement` ============== -/

/-- Input state of `calculate_stay_settlement`: the trip's families and
expenses, the settlement database state, whether the `expenses.created_at`
column exists (the branch taken by `_build_expense_time_filter`), and the
current date. -/
structure StayInput where
  families : List Family
  expenses : List Expense
  db : StayDB
  hasCreatedAt : Bool
  today : ℤ
deriving DecidableEq

/-- `_build_expense_time_filter`: with no previous settlement every expense
counts; otherwise either `e.created_at > prev.created_at` (when the
`created_at` column exists) or the fallback `to_date(e.date) >=
prev.period_end`. -/
def expenseInPeriod (hasCreatedAt : Bool) (prev : Option StoredSettlement) (e : Expense) :
    Bool :=
  match prev with
  | none => true
  | some p =>
    if hasCreatedAt then decide (p.created_at < e.created_at)
    else decide (p.period_end ≤ e.date)

def stayPeriodExpenses (inp : StayInput) : List Expense :=
  inp.expenses.filter (expenseInPeriod inp.hasCreatedAt (lastSettlement inp.db))

/-- Step 2: `SUM(e.amount)` over the period's expenses, with no payer
condition. -/
def stayTotalExpense (inp : StayInput) : ℚ :=
  ((stayPeriodExpenses inp).map Expense.amount).sum

/-- `int(SUM(members_count) or 0) or 1`: only an exact zero is replaced by 1. -/
def stayTotalMembers (inp : StayInput) : ℤ :=
  let s := (inp.families.map Family.members_count).sum
  if s = 0 then 1 else s

def stayPerHead (inp : StayInput) : ℚ :=
  stayTotalExpense inp / (stayTotalMembers inp : ℚ)

/-- Step 3: carry-forward balance of one family, read from the latest
settlement's detail rows (`COALESCE(adjusted_balance, balance, 0)`; both
columns are always written, so this is the stored `adjusted_balance`).
A family with no detail row carries 0. -/
def carryForwardBalance (prev : Option StoredSettlement) (fid : ℤ) : ℚ :=
  match prev with
  | none => 0
  | some p =>
    match p.details.find? (fun d => decide (d.family_id = fid)) with
    | some d => d.adjusted_balance
    | none => 0

/-- One family's row of the `results` list built in step 4 (net) and
step 6 (adjusted). -/
structure StayFamilyRes where
  family_id : ℤ
  family_name : String
  members_count : ℤ
  total_spent : ℚ
  due_amount : ℚ
  previous_balance : ℚ
  balance : ℚ
  adjusted_balance : ℚ
deriving DecidableEq

/-- Period-scoped amount paid by one family. -/
def staySpent (inp : StayInput) (fid : ℤ) : ℚ :=
  (((stayPeriodExpenses inp).filter (fun e => decide (e.payer_family_id = fid))).map
     Expense.amount).sum

/-- Step 6: adjustment from the active settlement transactions
(`from` pays → `+amt`, `to` receives → `-amt`). -/
def stayAdjustment (inp : StayInput) (fid : ℤ) : ℚ :=
  ((inp.db.txns.filter (fun t => decide (t.from_family_id = fid))).map Txn.amount).sum
  - ((inp.db.txns.filter (fun t => decide (t.to_family_id = fid))).map Txn.amount).sum

def stayFamilyRes (inp : StayInput) (f : Family) : StayFamilyRes :=
  let spent := staySpent inp f.id
  let due := stayPerHead inp * f.members_count
  let prev_bal := carryForwardBalance (lastSettlement inp.db) f.id
  let net := prev_bal + (spent - due)
  ⟨f.id, f.family_name, f.members_count, spent, due, prev_bal, net,
   net + stayAdjustment inp f.id⟩

/-- The `results` list before the zero-sum correction of step 6b. -/
def stayResultsPre (inp : StayInput) : List StayFamilyRes :=
  inp.families.map (stayFamilyRes inp)

def adjSum (rs : List StayFamilyRes) : ℚ :=
  (rs.map StayFamilyRes.adjusted_balance).sum

/-- The maximum of `abs(adjusted_balance)` over the result rows (0 for an
empty list, on which Python's `max` would instead raise). -/
def stayMaxAbs : List StayFamilyRes → ℚ
  | [] => 0
  | [r] => |r.adjusted_balance|
  | r :: rest => max |r.adjusted_balance| (stayMaxAbs rest)

/-- Subtract `tot` from the first row whose `abs(adjusted_balance)` equals
`m`; with `m` the maximum this is exactly Python's
`max(results, key=abs)["adjusted_balance"] -= total`. -/
def subtractFromFirstMax (m tot : ℚ) : List StayFamilyRes → List StayFamilyRes
  | [] => []
  | r :: rest =>
    if |r.adjusted_balance| = m then
      { r with adjusted_balance := r.adjusted_balance - tot } :: rest
    else r :: subtractFromFirstMax m tot rest

/-- Step 6b: if `abs(total_adj) > 0.01`, the whole residual is moved onto
the (first) row with the largest-magnitude adjusted balance. -/
def applyZeroSumCorrection (rs : List StayFamilyRes) : List StayFamilyRes :=
  let tot := adjSum rs
  if 1/100 < |tot| then subtractFromFirstMax (stayMaxAbs rs) tot rs else rs

/-- The `results` list after step 6b. -/
def stayResults (inp : StayInput) : List StayFamilyRes :=
  applyZeroSumCorrection (stayResultsPre inp)

/-- Stable insertion into a descending list: an element goes in front of
the first entry with a balance not larger than its own, so earlier input
entries stay in front of equal balances (Python's stable
`sort(key=lambda x: -bal)`). -/
def insertDesc (x : Party) : List Party → List Party
  | [] => [x]
  | y :: ys => if x.bal < y.bal then y :: insertDesc x ys else x :: y :: ys

def sortDesc : List Party → List Party
  | [] => []
  | x :: xs => insertDesc x (sortDesc xs)

/-- Stable insertion into an ascending list (Python's stable
`sort(key=lambda x: bal)`). -/
def insertAsc (x : Party) : List Party → List Party
  | [] => [x]
  | y :: ys => if y.bal < x.bal then y :: insertAsc x ys else x :: y :: ys

def sortAsc : List Party → List Party
  | [] => []
  | x :: xs => insertAsc x (sortAsc xs)

/-- Step 7: creditors are rows with adjusted balance above `0.01`, sorted
descending. -/
def stayCreditors (rs : List StayFamilyRes) : List Party :=
  sortDesc ((rs.filter (fun r => decide ((1/100 : ℚ) < r.adjusted_balance))).map
    (fun r => ⟨r.family_name, r.adjusted_balance⟩))

/-- Debtors are rows with adjusted balance below `-0.01`, sorted ascending
(most negative first). -/
def stayDebtors (rs : List StayFamilyRes) : List Party :=
  sortAsc ((rs.filter (fun r => decide (r.adjusted_balance < -(1/100 : ℚ)))).map
    (fun r => ⟨r.family_name, r.adjusted_balance⟩))

/-- The greedy matching loop of step 7.  Each iteration reads the current
creditor/debtor rounded to two decimals, skips entries already within
`0.01` of zero, otherwise transfers `min(c_bal, -d_bal)` (emitting a
suggestion only when the transfer exceeds `0.01`, with the amount rounded
to a whole number) and advances past entries whose remaining balance fell
below `0.01`.  The fuel argument only bounds the iteration count; every
iteration advances `ci + di`, so `cs.length + ds.length` fuel is never
exhausted before the loop condition fails. -/
def stayLoop : ℕ → List Party → List Party → ℕ → ℕ → List Suggestion → List Suggestion
  | 0, _, _, _, _, acc => acc
  | fuel + 1, cs, ds, ci, di, acc =>
    if h : ci < cs.length ∧ di < ds.length then
      let c := cs.get ⟨ci, h.1⟩
      let d := ds.get ⟨di, h.2⟩
      let cBal := pyRound2 c.bal
      let dBal := pyRound2 d.bal
      if cBal < 1/100 then stayLoop fuel cs ds (ci + 1) di acc
      else if -(1/100) < dBal then stayLoop fuel cs ds ci (di + 1) acc
      else
        let pay := min cBal (-dBal)
        let acc2 := if 1/100 < pay then acc ++ [⟨d.name, c.name, pyRound pay⟩] else acc
        let cs2 := cs.set ci ⟨c.name, c.bal - pay⟩
        let ds2 := ds.set di ⟨d.name, d.bal + pay⟩
        let ci2 := if |c.bal - pay| < 1/100 then ci + 1 else ci
        let di2 := if |d.bal + pay| < 1/100 then di + 1 else di
        stayLoop fuel cs2 ds2 ci2 di2 acc2
    else acc

/-- The suggested settlements of `calculate_stay_settlement`. -/
def staySuggested (rs : List StayFamilyRes) : List Suggestion :=
  let cs := stayCreditors rs
  let ds := stayDebtors rs
  stayLoop (cs.length + ds.length) cs ds 0 0 []

/-- Per-family output row (step 8 rounds every value to a whole number). -/
structure StayFamilyOut where
  family_id : ℤ
  family_name : String
  members_count : ℤ
  total_spent : ℤ
  due_amount : ℤ
  previous_balance : ℤ
  balance : ℤ
  adjusted_balance : ℤ
deriving DecidableEq

def roundFamilyOut (r : StayFamilyRes) : StayFamilyOut :=
  ⟨r.family_id, r.family_name, r.members_count, pyRound r.total_spent,
   pyRound r.due_amount, pyRound r.previous_balance, pyRound r.balance,
   pyRound r.adjusted_balance⟩

structure StayResult where
  period_start : ℤ
  period_end : ℤ
  total_expense : ℤ
  total_members : ℤ
  per_head_cost : ℤ
  families : List StayFamilyOut
  carry_forward : Bool
  previous_settlement_id : Option ℤ
  suggested : List Suggestion
deriving DecidableEq

/-- `calculate_stay_settlement(trip_id)`. -/
def calculate_stay_settlement (inp : StayInput) : StayResult :=
  let rs := stayResults inp
  { period_start :=
      match lastSettlement inp.db with
      | some p => p.period_end + 1
      | none => inp.today
    period_end := inp.today
    total_expense := pyRound (stayTotalExpense inp)
    total_members := stayTotalMembers inp
    per_head_cost := pyRound (stayPerHead inp)
    families := rs.map roundFamilyOut
    carry_forward :=
      match lastSettlement inp.db with
      | some p => !p.details.isEmpty
      | none => false
    previous_settlement_id := (lastSettlement inp.db).map StoredSettlement.id
    suggested := staySuggested rs }

/- ============== STAY mode: `record_stay_settlement` ============== -/

/-- The failure-injection points of `record_stay_settlement`: each value
names one database operation inside the `try` block.  `commitA` is the
`conn.commit()` issued right after the detail rows are written ("commit
summary + details before logging"); `commitB` is the final commit. -/
inductive Step where
  | insertSummary | insertDetails | commitA | carryLog | snapshot
  | archiveCopy | archiveClear | commitB
deriving DecidableEq

def fails (failAt : Option Step) (s : Step) : Bool := failAt = some s

/-- The detail row written for one family of the result: both balances go
through `round(x, 2)` and a `< 0.01` snap-to-zero. -/
def storedDetail (f : StayFamilyOut) : SettlementDetail :=
  let net := pyRound2 (f.balance : ℚ)
  let adj := pyRound2 (f.adjusted_balance : ℚ)
  ⟨f.family_id, if |net| < 1/100 then 0 else net, if |adj| < 1/100 then 0 else adj⟩

/-- `record_carry_forward_log`: no rows when a log for the new settlement
already exists; baseline rows (previous 0, no link) for a first
settlement; otherwise a left join of the new detail rows against the
previous settlement's detail rows. -/
def carryRows (db : StayDB) (prevId : Option ℤ) (newId : ℤ)
    (newDetails : List SettlementDetail) : List CarryRow :=
  if (db.carry_log.filter (fun r => decide (r.new_settlement_id = newId))).length > 0 then []
  else
    match prevId with
    | none =>
      newDetails.map (fun d => ⟨none, newId, d.family_id, 0, d.adjusted_balance,
        d.adjusted_balance⟩)
    | some pid =>
      let prevDetails :=
        match db.settlements.find? (fun s => decide (s.id = pid)) with
        | some s => s.details
        | none => []
      newDetails.map (fun d =>
        let pb :=
          match prevDetails.find? (fun x => decide (x.family_id = d.family_id)) with
          | some x => x.adjusted_balance
          | none => 0
        ⟨some pid, newId, d.family_id, pb, d.adjusted_balance, d.adjusted_balance - pb⟩)

/-- The body of `record_stay_settlement` after the duplicate guard.  The
returned state is what is durably committed: the summary and detail rows
are committed by `commitA` before the carry-forward log and the archival
run, the history snapshot uses its own connection (it commits
independently and its failures are swallowed), and the carry-forward rows
and the archival only become durable at the final commit.  A failing step
rolls back whatever is uncommitted and surfaces no settlement id. -/
def recordStayGo (now : ℤ) (db : StayDB) (result : StayResult)
    (failAt : Option Step) : Option ℤ × StayDB :=
  let sid := db.nextId
  if fails failAt .insertSummary then (none, db)
  else if fails failAt .insertDetails then (none, db)
  else if fails failAt .commitA then (none, db)
  else
    let details := result.families.map storedDetail
    let newSett : StoredSettlement :=
      ⟨sid, result.total_expense, result.total_members, result.per_head_cost,
       result.period_start, result.period_end, now, details⟩
    let dbC : StayDB :=
      { db with settlements := newSett :: db.settlements, nextId := db.nextId + 1 }
    if fails failAt .carryLog then (none, dbC)
    else
      let crows := carryRows db result.previous_settlement_id sid details
      let dbC2 : StayDB :=
        if fails failAt .snapshot then dbC
        else if dbC.history.contains sid then dbC
        else { dbC with history := sid :: dbC.history }
      if fails failAt .archiveCopy then (none, dbC2)
      else if fails failAt .archiveClear then (none, dbC2)
      else if fails failAt .commitB then (none, dbC2)
      else
        (some sid,
         { dbC2 with
             carry_log := dbC2.carry_log ++ crows
             archive := dbC2.archive ++ db.txns.map (fun t => (sid, t))
             txns := [] })

/-- `record_stay_settlement(trip_id, result)`: if the most recent settlement
was created less than 5 seconds ago, the call is skipped and the existing
settlement id is returned; otherwise the recording body runs. -/
def record_stay_settlement (now : ℤ) (db : StayDB) (result : StayResult)
    (failAt : Option Step) : Option ℤ × StayDB :=
  match lastSettlement db with
  | some ex =>
    if now - ex.created_at < 5 then (some ex.id, db)
    else recordStayGo now db result failAt
  | none => recordStayGo now db result failAt

/- ===================== Rounding lemmas ===================== -/

theorem abs_pyRound_sub_le (x : ℚ) : |(pyRound x : ℚ) - x| ≤ 1/2 := by
  unfold pyRound
  split
  case isTrue h =>
    split
    case isTrue h2 =>
      rw [abs_sub_comm, h]
      norm_num [abs_le]
    case isFalse h2 =>
      have h3 : ((⌊x⌋ + 1 : ℤ) : ℚ) - x = 1/2 := by push_cast; linarith
      rw [h3]
      norm_num [abs_le]
  case isFalse h =>
    rw [abs_sub_comm]
    exact abs_sub_round x

theorem abs_pyRound2_sub_le (x : ℚ) : |pyRound2 x - x| ≤ 1/200 := by
  unfold pyRound2
  have h := abs_pyRound_sub_le (x * 100)
  have h2 : (pyRound (x * 100) : ℚ) / 100 - x = ((pyRound (x * 100) : ℚ) - x * 100) / 100 := by
    ring
  rw [h2, abs_div, abs_of_pos (by norm_num : (0:ℚ) < 100)]
  linarith

/- ===================== Zero-sum correction lemmas ===================== -/

theorem adjSum_nil : adjSum [] = 0 := rfl

theorem adjSum_cons (r : StayFamilyRes) (rs : List StayFamilyRes) :
    adjSum (r :: rs) = r.adjusted_balance + adjSum rs := by
  simp [adjSum]

theorem adjSum_subtractFromFirstMax (m tot : ℚ) (rs : List StayFamilyRes)
    (h : ∃ r ∈ rs, |r.adjusted_balance| = m) :
    adjSum (subtractFromFirstMax m tot rs) = adjSum rs - tot := by
  induction rs with
  | nil => simp at h
  | cons a rest ih =>
    by_cases ha : |a.adjusted_balance| = m
    · rw [subtractFromFirstMax, if_pos ha, adjSum_cons, adjSum_cons]
      ring
    · have h2 : ∃ r ∈ rest, |r.adjusted_balance| = m := by
        rcases h with ⟨r, hr, hm⟩
        rcases List.mem_cons.mp hr with h1 | h1
        · exact absurd (h1 ▸ hm) ha
        · exact ⟨r, h1, hm⟩
      rw [subtractFromFirstMax, if_neg ha, adjSum_cons, adjSum_cons, ih h2]
      ring

theorem stayMaxAbs_cons₂ (a b : StayFamilyRes) (rest : List StayFamilyRes) :
    stayMaxAbs (a :: b :: rest) = max |a.adjusted_balance| (stayMaxAbs (b :: rest)) := rfl

theorem stayMaxAbs_mem (rs : List StayFamilyRes) (h : rs ≠ []) :
    ∃ r ∈ rs, |r.adjusted_balance| = stayMaxAbs rs := by
  induction rs with
  | nil => exact absurd rfl h
  | cons a rest ih =>
    cases rest with
    | nil => exact ⟨a, List.mem_cons_self a [], by rw [stayMaxAbs]⟩
    | cons b rest2 =>
      rcases le_total (stayMaxAbs (b :: rest2)) |a.adjusted_balance| with hle | hle
      · refine ⟨a, List.mem_cons_self a (b :: rest2), ?_⟩
        rw [stayMaxAbs_cons₂, max_eq_left hle]
      · rcases ih (by simp) with ⟨r, hr, hm⟩
        refine ⟨r, List.mem_cons_of_mem a hr, ?_⟩
        rw [stayMaxAbs_cons₂, max_eq_right hle, hm]

/-- C2: for every input state with at least one participant, the adjusted
balances produced by `calculate_stay_settlement` — active payments applied
and the residual correction of step 6b performed — sum to at most `0.01`
in absolute value. -/
theorem c2_adjusted_zero_sum (inp : StayInput) (h : inp.families ≠ []) :
    |adjSum (stayResults inp)| ≤ 1/100 := by
  unfold stayResults applyZeroSumCorrection
  by_cases hc : 1/100 < |adjSum (stayResultsPre inp)|
  · rw [if_pos hc]
    have hne : stayResultsPre inp ≠ [] := by
      intro h0
      rw [h0, adjSum_nil, abs_zero] at hc
      exact absurd hc (by norm_num)
    rw [adjSum_subtractFromFirstMax _ _ _ (stayMaxAbs_mem _ hne)]
    simp
  · rw [if_neg hc]
    exact le_of_not_lt hc

def c2inp : StayInput :=
  ⟨[⟨1, "A", 1⟩, ⟨2, "B", 1⟩], [⟨1, 10, 1, 1⟩], ⟨[], [], [], [], [], 1⟩, true, 5⟩

theorem c2_adjusted_zero_sum_witness :
    c2inp.families ≠ [] ∧ |adjSum (stayResults c2inp)| ≤ 1/100 :=
  ⟨by decide, c2_adjusted_zero_sum c2inp (by decide)⟩

/- ===================== C6: drift handling ===================== -/

/-- Input whose carried-over balances sum to `-1/2`, far beyond epsilon:
two families, no expenses, a prior settlement storing adjusted balances
`3/2` and `-2`. -/
def c6cinp : StayInput :=
  ⟨[⟨1, "A", 1⟩, ⟨2, "B", 1⟩], [],
   ⟨[⟨1, 0, 2, 0, 0, 10, 50, [⟨1, 3/2, 3/2⟩, ⟨2, -2, -2⟩]⟩], [], [], [], [], 2⟩,
   true, 20⟩

/-- C6 counterexample: the claim says a zero-sum violation beyond epsilon
surfaces a ConsistencyError and is never silently absorbed.  On this input
the adjusted balances sum to `-1/2` (beyond `0.01`), yet
`calculate_stay_settlement` returns normally — no error of any kind exists
in the code — after silently moving the whole residual onto family B
(`-2` becomes `-3/2`): exactly the in-process correction the claim rules
out for beyond-epsilon drift. -/
theorem c6_counterexample :
    1/100 < |adjSum (stayResultsPre c6cinp)| ∧
    (stayResultsPre c6cinp).map StayFamilyRes.adjusted_balance = [3/2, -2] ∧
    (stayResults c6cinp).map StayFamilyRes.adjusted_balance = [3/2, -3/2] ∧
    adjSum (stayResults c6cinp) = 0 := by
  refine ⟨?_, ?_, ?_, ?_⟩ <;>
    norm_num [stayResults, applyZeroSumCorrection, stayResultsPre, stayFamilyRes, staySpent,
      stayPeriodExpenses, expenseInPeriod, lastSettlement, stayTotalExpense, stayTotalMembers,
      stayPerHead, carryForwardBalance, stayAdjustment, adjSum, stayMaxAbs, subtractFromFirstMax,
      List.filter, List.find?, abs_of_nonneg, abs_of_nonpos, c6cinp]

/-- C6 (amended): a zero-sum violation beyond epsilon is silently absorbed
in-process: whenever the adjusted balances sum to more than `0.01` in
absolute value, the whole residual is moved onto the largest-magnitude
participant and the sum becomes exactly zero, with no error raised
(no ConsistencyError exists in the code); drift of at most `0.01` is left
entirely uncorrected. -/
theorem c6_amended (inp : StayInput) :
    (1/100 < |adjSum (stayResultsPre inp)| → adjSum (stayResults inp) = 0) ∧
    (|adjSum (stayResultsPre inp)| ≤ 1/100 → stayResults inp = stayResultsPre inp) := by
  constructor
  · intro hc
    unfold stayResults applyZeroSumCorrection
    rw [if_pos hc]
    have hne : stayResultsPre inp ≠ [] := by
      intro h0
      rw [h0, adjSum_nil, abs_zero] at hc
      exact absurd hc (by norm_num)
    rw [adjSum_subtractFromFirstMax _ _ _ (stayMaxAbs_mem _ hne)]
    exact sub_self _
  · intro hc
    unfold stayResults applyZeroSumCorrection
    rw [if_neg (not_lt.mpr hc)]

def c6winp : StayInput :=
  ⟨[⟨1, "A", 1⟩, ⟨2, "B", 1⟩], [],
   ⟨[⟨1, 0, 2, 0, 0, 10, 50, [⟨1, 1, 1⟩, ⟨2, -2, -2⟩]⟩], [], [], [], [], 2⟩,
   true, 20⟩

def c6winp2 : StayInput := ⟨[⟨1, "A", 1⟩], [], ⟨[], [], [], [], [], 1⟩, true, 0⟩

theorem c6_amended_witness :
    (1/100 < |adjSum (stayResultsPre c6winp)| ∧ adjSum (stayResults c6winp) = 0) ∧
    (|adjSum (stayResultsPre c6winp2)| ≤ 1/100 ∧
      stayResults c6winp2 = stayResultsPre c6winp2) := by
  have h : 1/100 < |adjSum (stayResultsPre c6winp)| := by
    norm_num [stayResultsPre, stayFamilyRes, staySpent, stayPeriodExpenses, expenseInPeriod,
      lastSettlement, stayTotalExpense, stayTotalMembers, stayPerHead, carryForwardBalance,
      stayAdjustment, adjSum, List.filter, List.find?, abs_of_nonneg, abs_of_nonpos, c6winp]
  have h2 : |adjSum (stayResultsPre c6winp2)| ≤ 1/100 := by
    norm_num [stayResultsPre, stayFamilyRes, staySpent, stayPeriodExpenses, expenseInPeriod,
      lastSettlement, stayTotalExpense, stayTotalMembers, stayPerHead, carryForwardBalance,
      stayAdjustment, adjSum, List.filter, List.find?, abs_of_nonneg, abs_of_nonpos, c6winp2]
  exact ⟨⟨h, (c6_amended c6winp).1 h⟩, h2, (c6_amended c6winp2).2 h2⟩

/- ===================== C3: empty group ===================== -/

def c3tinp : TripInput := ⟨[], [⟨1, 5, 1, 1⟩], [], []⟩

def c3sinp : StayInput := ⟨[], [⟨1, 5, 1, 1⟩], ⟨[], [], [], [], [], 1⟩, true, 7⟩

/-- C3 counterexample: the claim says a computation on a group with zero
participants raises a ValidationError and returns no normal result object,
in either mode.  In fact nothing is raised: TRIP mode returns the
`{"message": "No families found for this trip."}` object, and STAY mode
returns this perfectly normal result (with an empty family list, the
member count floored to 1, and the stray expense still summed into
`total_expense`). -/
theorem c3_counterexample :
    get_settlement c3tinp = TripOutput.noFamilies ∧
    calculate_stay_settlement c3sinp =
      { period_start := 7, period_end := 7, total_expense := 5, total_members := 1,
        per_head_cost := 5, families := [], carry_forward := false,
        previous_settlement_id := none, suggested := [] } := by
  constructor
  · rfl
  · norm_num [calculate_stay_settlement, stayResults, applyZeroSumCorrection, stayResultsPre,
      adjSum, subtractFromFirstMax, stayTotalExpense, stayTotalMembers, stayPerHead,
      stayPeriodExpenses, expenseInPeriod, lastSettlement, staySuggested, stayCreditors,
      stayDebtors, sortDesc, sortAsc, stayLoop, pyRound, c3sinp, List.filter, round_eq]

/-- C3 (amended): a computation on a group with zero participants raises
nothing and touches no state (both computations are pure reads): TRIP mode
returns the "No families found" message object instead of a settlement
result, while STAY mode returns a normal result object with an empty
family list and `total_members` floored to 1. -/
theorem c3_amended (es : List Expense) (adv : List Advance) (ts : List Txn)
    (db : StayDB) (hca : Bool) (today : ℤ) :
    get_settlement ⟨[], es, adv, ts⟩ = TripOutput.noFamilies ∧
    (calculate_stay_settlement ⟨[], es, db, hca, today⟩).families = [] ∧
    (calculate_stay_settlement ⟨[], es, db, hca, today⟩).total_members = 1 := by
  refine ⟨?_, ?_, ?_⟩
  · rw [get_settlement, if_pos rfl]
  · show (stayResults ⟨[], es, db, hca, today⟩).map roundFamilyOut = []
    simp [stayResults, stayResultsPre, applyZeroSumCorrection, adjSum, subtractFromFirstMax]
  · show stayTotalMembers ⟨[], es, db, hca, today⟩ = 1
    simp [stayTotalMembers]

/- ===================== C9: the per-capita divisor ===================== -/

/-- The spec's divisor formula, named from the spec's words for
comparison: per-capita cost is the total divided by the total weight
floored at 1. -/
def perCapitaSpecFormula (total : ℚ) (w : ℤ) : ℚ := total / ((max w 1 : ℤ) : ℚ)

def c9tinp : TripInput := ⟨[⟨1, "A", 0⟩], [⟨1, 100, 1, 1⟩], [], []⟩

/-- C9 counterexample: the claim says the divisor is always floored at 1 in
both modes, making `per_capita_cost = total_cost / max(total_weight, 1)`
and the division-by-zero branch unreachable.  In TRIP mode the code
instead computes `total / members if members > 0 else 0.0`; with one
family of zero members and a 100-unit expense that reachable zero branch
yields 0, while the claimed formula yields 100. -/
theorem c9_counterexample :
    tripPerHead c9tinp = 0 ∧
    perCapitaSpecFormula (tripTotalExpense c9tinp) (tripTotalMembers c9tinp) = 100 ∧
    (0 : ℚ) ≠ 100 := by
  refine ⟨?_, ?_, by norm_num⟩ <;>
    norm_num [tripPerHead, perCapitaSpecFormula, tripTotalExpense, tripTotalMembers,
      familyIds, List.filter, c9tinp]

/-- C9 (amended): STAY mode floors the divisor at 1 — for any nonnegative
total member count `per_head_cost = total / max(members, 1)`, so its
division is never by zero.  TRIP mode instead guards with a conditional:
the floored-divisor formula only coincides with it when the total member
count is positive; with families totalling zero members the reachable
guard branch returns 0 instead. -/
theorem c9_amended (sinp : StayInput) (tinp : TripInput)
    (hs : 0 ≤ (sinp.families.map Family.members_count).sum)
    (ht : 0 < tripTotalMembers tinp) :
    stayPerHead sinp = perCapitaSpecFormula (stayTotalExpense sinp)
      ((sinp.families.map Family.members_count).sum) ∧
    tripPerHead tinp = perCapitaSpecFormula (tripTotalExpense tinp) (tripTotalMembers tinp) := by
  constructor
  · rw [stayPerHead, stayTotalMembers, perCapitaSpecFormula]
    by_cases h0 : (sinp.families.map Family.members_count).sum = 0
    · rw [if_pos h0, h0, max_eq_right (by omega : (0:ℤ) ≤ 1)]
    · rw [if_neg h0, max_eq_left (by omega)]
  · rw [tripPerHead, if_pos ht, perCapitaSpecFormula, max_eq_left (by omega)]

def c9wsinp : StayInput := ⟨[⟨1, "A", 2⟩], [⟨1, 10, 1, 1⟩], ⟨[], [], [], [], [], 1⟩, true, 3⟩

def c9wtinp : TripInput := ⟨[⟨1, "A", 4⟩], [⟨1, 10, 1, 1⟩], [], []⟩

theorem c9_amended_witness :
    (0 ≤ (c9wsinp.families.map Family.members_count).sum) ∧ (0 < tripTotalMembers c9wtinp) ∧
    stayPerHead c9wsinp = perCapitaSpecFormula (stayTotalExpense c9wsinp)
      ((c9wsinp.families.map Family.members_count).sum) ∧
    tripPerHead c9wtinp = perCapitaSpecFormula (tripTotalExpense c9wtinp)
      (tripTotalMembers c9wtinp) := by
  have h1 : 0 ≤ (c9wsinp.families.map Family.members_count).sum := by norm_num [c9wsinp]
  have h2 : 0 < tripTotalMembers c9wtinp := by norm_num [tripTotalMembers, c9wtinp]
  exact ⟨h1, h2, (c9_amended c9wsinp c9wtinp h1 h2).1, (c9_amended c9wsinp c9wtinp h1 h2).2⟩

/- ===================== C10: unknown payers ===================== -/

/-- C10: a cost entry whose payer is no current family of the trip is
ignored entirely in TRIP mode — it contributes neither to `total_expense`
nor to any family's paid total — whereas STAY mode still counts it in the
period's `total_expense` while attributing it to no family's spent
amount. -/
theorem c10_unknown_payer (tinp : TripInput) (sinp : StayInput) (e : Expense)
    (ht : e.payer_family_id ∉ familyIds tinp.families)
    (hs : ∀ f ∈ sinp.families, f.id ≠ e.payer_family_id)
    (hper : expenseInPeriod sinp.hasCreatedAt (lastSettlement sinp.db) e = true) :
    tripTotalExpense { tinp with expenses := e :: tinp.expenses } = tripTotalExpense tinp ∧
    (∀ f ∈ tinp.families,
      tripPaid { tinp with expenses := e :: tinp.expenses } f.id = tripPaid tinp f.id) ∧
    stayTotalExpense { sinp with expenses := e :: sinp.expenses }
      = e.amount + stayTotalExpense sinp ∧
    (∀ f ∈ sinp.families,
      staySpent { sinp with expenses := e :: sinp.expenses } f.id = staySpent sinp f.id) := by
  refine ⟨?_, ?_, ?_, ?_⟩
  · simp [tripTotalExpense, List.filter_cons, ht]
  · intro f hf
    have hne : e.payer_family_id ≠ f.id := by
      intro hEq
      exact ht (hEq ▸ List.mem_map_of_mem Family.id hf)
    simp [tripPaid, List.filter_cons, hne]
  · simp [stayTotalExpense, stayPeriodExpenses, List.filter_cons, hper]
  · intro f hf
    have hne : e.payer_family_id ≠ f.id := fun hEq => hs f hf (hEq ▸ rfl)
    simp [staySpent, stayPeriodExpenses, List.filter_cons, hper, hne]

def c10tinp : TripInput := ⟨[⟨1, "A", 1⟩], [⟨1, 3, 1, 1⟩], [], []⟩

def c10sinp : StayInput := ⟨[⟨1, "A", 1⟩], [⟨1, 3, 1, 1⟩], ⟨[], [], [], [], [], 1⟩, true, 9⟩

def c10e : Expense := ⟨77, 4, 2, 2⟩

theorem c10_unknown_payer_witness :
    c10e.payer_family_id ∉ familyIds c10tinp.families ∧
    tripTotalExpense { c10tinp with expenses := c10e :: c10tinp.expenses }
      = tripTotalExpense c10tinp ∧
    stayTotalExpense { c10sinp with expenses := c10e :: c10sinp.expenses }
      = c10e.amount + stayTotalExpense c10sinp ∧
    tripPaid { c10tinp with expenses := c10e :: c10tinp.expenses } 1 = tripPaid c10tinp 1 ∧
    staySpent { c10sinp with expenses := c10e :: c10sinp.expenses } 1 = staySpent c10sinp 1 := by
  have ht : c10e.payer_family_id ∉ familyIds c10tinp.families := by
    norm_num [c10e, c10tinp, familyIds]
  have hs : ∀ f ∈ c10sinp.families, f.id ≠ c10e.payer_family_id := by
    norm_num [c10e, c10sinp]
  have hper : expenseInPeriod c10sinp.hasCreatedAt (lastSettlement c10sinp.db) c10e = true := by
    norm_num [expenseInPeriod, lastSettlement, c10sinp]
  refine ⟨ht, (c10_unknown_payer c10tinp c10sinp c10e ht hs hper).1,
    (c10_unknown_payer c10tinp c10sinp c10e ht hs hper).2.2.1,
    (c10_unknown_payer c10tinp c10sinp c10e ht hs hper).2.1 ⟨1, "A", 1⟩ (by norm_num [c10tinp]),
    (c10_unknown_payer c10tinp c10sinp c10e ht hs hper).2.2.2 ⟨1, "A", 1⟩ (by norm_num [c10sinp])⟩

/- ===================== C4: the period filter ===================== -/

def c4prev : StoredSettlement := ⟨1, 0, 2, 0, 0, 10, 50, [⟨1, 0, 0⟩, ⟨2, 0, 0⟩]⟩

/-- A cost entry dated exactly on the prior period's end. -/
def c4e : Expense := ⟨1, 5, 10, 99⟩

def c4inp : StayInput :=
  ⟨[⟨1, "A", 1⟩, ⟨2, "B", 1⟩], [c4e], ⟨[c4prev], [], [], [], [], 2⟩, false, 20⟩

/-- C4 counterexample: the claim says every cost entry dated at or before
the prior period's end is excluded in both period-filter branches.  In the
date-based fallback branch (`to_date(e.date) >= prev_end`), this entry —
dated exactly on the prior period's end, day 10 — is included: it lands in
the period's expense list, in the total and in the payer's paid amount. -/
theorem c4_counterexample :
    c4e.date ≤ c4prev.period_end ∧
    stayPeriodExpenses c4inp = [c4e] ∧
    stayTotalExpense c4inp = 5 ∧
    staySpent c4inp 1 = 5 := by
  refine ⟨by norm_num [c4e, c4prev], ?_, ?_, ?_⟩ <;>
    norm_num [stayPeriodExpenses, stayTotalExpense, staySpent, expenseInPeriod, lastSettlement,
      List.filter, c4inp, c4e, c4prev]

/-- C4 (amended): for a RECURRING group with a prior Settlement, the
created_at branch excludes exactly the entries created at or before the
prior finalize instant (regardless of their date), and the date-based
fallback excludes only the entries dated strictly before the prior
period's end — an entry dated exactly on the prior period's end is
included there.  Excluded entries contribute neither to the period total
nor to any family's paid amount. -/
theorem c4_amended (inp : StayInput) (p : StoredSettlement) (e : Expense)
    (h1 : lastSettlement inp.db = some p) :
    (inp.hasCreatedAt = true → e.created_at ≤ p.created_at →
      stayTotalExpense { inp with expenses := e :: inp.expenses } = stayTotalExpense inp ∧
      ∀ fid, staySpent { inp with expenses := e :: inp.expenses } fid = staySpent inp fid) ∧
    (inp.hasCreatedAt = false → e.date < p.period_end →
      stayTotalExpense { inp with expenses := e :: inp.expenses } = stayTotalExpense inp ∧
      ∀ fid, staySpent { inp with expenses := e :: inp.expenses } fid = staySpent inp fid) := by
  constructor
  · intro hca hle
    have hdrop : expenseInPeriod inp.hasCreatedAt (lastSettlement inp.db) e = false := by
      rw [h1, expenseInPeriod, hca]
      simp [not_lt.mpr hle]
    constructor
    · simp [stayTotalExpense, stayPeriodExpenses, List.filter_cons, hdrop]
    · intro fid
      simp [staySpent, stayPeriodExpenses, List.filter_cons, hdrop]
  · intro hca hlt
    have hdrop : expenseInPeriod inp.hasCreatedAt (lastSettlement inp.db) e = false := by
      rw [h1, expenseInPeriod, hca]
      simp [not_le.mpr hlt]
    constructor
    · simp [stayTotalExpense, stayPeriodExpenses, List.filter_cons, hdrop]
    · intro fid
      simp [staySpent, stayPeriodExpenses, List.filter_cons, hdrop]

def c4wprev : StoredSettlement := ⟨1, 0, 1, 0, 0, 10, 50, [⟨1, 0, 0⟩]⟩

def c4we : Expense := ⟨1, 7, 3, 40⟩

def c4winp : StayInput := ⟨[⟨1, "A", 1⟩], [], ⟨[c4wprev], [], [], [], [], 2⟩, true, 20⟩

def c4winp2 : StayInput := ⟨[⟨1, "A", 1⟩], [], ⟨[c4wprev], [], [], [], [], 2⟩, false, 20⟩

def c4we2 : Expense := ⟨1, 7, 4, 60⟩

theorem c4_amended_witness :
    (lastSettlement c4winp.db = some c4wprev ∧ c4winp.hasCreatedAt = true ∧
     c4we.created_at ≤ c4wprev.created_at ∧
     stayTotalExpense { c4winp with expenses := c4we :: c4winp.expenses }
       = stayTotalExpense c4winp ∧
     staySpent { c4winp with expenses := c4we :: c4winp.expenses } 1 = staySpent c4winp 1) ∧
    (c4winp2.hasCreatedAt = false ∧ c4we2.date < c4wprev.period_end ∧
     stayTotalExpense { c4winp2 with expenses := c4we2 :: c4winp2.expenses }
       = stayTotalExpense c4winp2) :=
  ⟨⟨rfl, rfl, by norm_num [c4we, c4wprev],
    ((c4_amended c4winp c4wprev c4we rfl).1 rfl (by norm_num [c4we, c4wprev])).1,
    ((c4_amended c4winp c4wprev c4we rfl).1 rfl (by norm_num [c4we, c4wprev])).2 1⟩,
   rfl, by norm_num [c4we2, c4wprev],
   ((c4_amended c4winp2 c4wprev c4we2 rfl).2 rfl (by norm_num [c4we2, c4wprev])).1⟩

/- ===================== Finalizer lemmas ===================== -/

theorem pyRound_intCast (n : ℤ) : pyRound (n : ℚ) = n := by
  rw [pyRound, Int.floor_intCast, if_neg (by norm_num), round_intCast]

theorem pyRound2_intCast (n : ℤ) : pyRound2 (n : ℚ) = n := by
  rw [pyRound2, show ((n : ℚ) * 100) = ((n * 100 : ℤ) : ℚ) by push_cast; ring,
    pyRound_intCast]
  push_cast
  ring

/-- Snapping an integer-valued balance below `0.01` to zero does nothing:
the only such integer is zero itself. -/
theorem int_snap (n : ℤ) : (if |(n : ℚ)| < 1/100 then (0:ℚ) else (n : ℚ)) = n := by
  split
  case isTrue h =>
    have h2 : |(n : ℚ)| < 1 := lt_trans h (by norm_num)
    rw [← Int.cast_abs] at h2
    have h3 : |n| < 1 := by exact_mod_cast h2
    have h4 : n = 0 := by
      rcases abs_lt.mp h3 with ⟨hl, hr⟩
      omega
    simp [h4]
  case isFalse h => rfl

/-- The detail row stored for a calculator output row: the calculator
already rounded every balance to a whole number, so the `round(x, 2)` and
the snap-to-zero in the recorder change nothing. -/
theorem storedDetail_eq (f : StayFamilyOut) :
    storedDetail f = ⟨f.family_id, (f.balance : ℚ), (f.adjusted_balance : ℚ)⟩ := by
  rw [storedDetail]
  simp only [pyRound2_intCast]
  rw [SettlementDetail.mk.injEq]
  exact ⟨rfl, int_snap f.balance, int_snap f.adjusted_balance⟩

/-- With no failure injected, the recording body commits everything: the
new settlement (with its detail rows) is prepended, the carry-forward rows
are appended, every active transaction is archived under the new
settlement id, and the active set is cleared. -/
theorem recordStayGo_none (now : ℤ) (db : StayDB) (res : StayResult) :
    recordStayGo now db res none =
      (some db.nextId,
       { settlements :=
           ⟨db.nextId, res.total_expense, res.total_members, res.per_head_cost,
            res.period_start, res.period_end, now, res.families.map storedDetail⟩
           :: db.settlements
         txns := []
         archive := db.archive ++ db.txns.map (fun t => (db.nextId, t))
         carry_log := db.carry_log ++ carryRows db res.previous_settlement_id db.nextId
           (res.families.map storedDetail)
         history := if db.nextId ∈ db.history then db.history else db.nextId :: db.history
         nextId := db.nextId + 1 }) := by
  simp only [recordStayGo, fails]
  norm_num
  by_cases hc : db.nextId ∈ db.history
  · simp [hc]
  · simp [hc]

/-- When the duplicate guard does not trigger, `record_stay_settlement`
runs the recording body. -/
theorem record_eq_go (now : ℤ) (db : StayDB) (res : StayResult) (failAt : Option Step)
    (hguard : ∀ ex, db.settlements.head? = some ex → 5 ≤ now - ex.created_at) :
    record_stay_settlement now db res failAt = recordStayGo now db res failAt := by
  rw [record_stay_settlement]
  unfold lastSettlement
  cases h : db.settlements.head? with
  | none => rfl
  | some ex =>
    show (if now - ex.created_at < 5 then (some ex.id, db) else recordStayGo now db res failAt)
        = recordStayGo now db res failAt
    rw [if_neg (not_lt.mpr (hguard ex h))]

/- ===================== C1: atomicity of finalize ===================== -/

def c1db : StayDB := ⟨[], [⟨1, 2, 50⟩], [], [], [], 1⟩

def c1res : StayResult :=
  ⟨0, 5, 100, 2, 50,
   [⟨1, "A", 1, 100, 50, 0, 50, 50⟩, ⟨2, "B", 1, 0, 50, 0, -50, -50⟩], false, none, []⟩

/-- C1 counterexample: the claim says finalization is all-or-nothing — in
particular that a Settlement header and balance rows are never observable
without the corresponding payment archival.  The code commits the summary
and detail rows before archiving ("commit summary + details before
logging"); injecting a failure at the archive step therefore leaves a
fully committed Settlement in the database while the active payment was
never archived and is still in the active set. -/
theorem c1_counterexample :
    record_stay_settlement 100 c1db c1res (some Step.archiveCopy)
      = (none, ⟨[⟨1, 100, 2, 50, 0, 5, 100, [⟨1, 50, 50⟩, ⟨2, -50, -50⟩]⟩],
                [⟨1, 2, 50⟩], [], [], [1], 2⟩) ∧
    (record_stay_settlement 100 c1db c1res (some Step.archiveCopy)).2.settlements.length = 1 ∧
    (record_stay_settlement 100 c1db c1res (some Step.archiveCopy)).2.archive = [] ∧
    (record_stay_settlement 100 c1db c1res (some Step.archiveCopy)).2.txns ≠ [] := by
  have h : record_stay_settlement 100 c1db c1res (some Step.archiveCopy)
      = (none, ⟨[⟨1, 100, 2, 50, 0, 5, 100, [⟨1, 50, 50⟩, ⟨2, -50, -50⟩]⟩],
                [⟨1, 2, 50⟩], [], [], [1], 2⟩) := by
    rw [record_eq_go _ _ _ _ (by intro ex hex; simp [c1db] at hex)]
    simp +decide [recordStayGo, fails, c1db, c1res, storedDetail_eq]
  refine ⟨h, by rw [h]; rfl, by rw [h], by rw [h]; simp⟩

/-- C1 (amended): finalization is not all-or-nothing.  A failure in the
steps up to and including the first commit (summary insert, detail insert,
that commit) aborts cleanly, leaving the state exactly as before.  But the
summary and detail rows are committed before the carry-forward log and the
payment archival: a failure in any later step (carry-forward log, archive
copy, archive clear, final commit) surfaces no settlement id yet leaves
the new Settlement header and balance rows durably committed while the
active payments were not archived and not cleared. -/
theorem c1_amended (now : ℤ) (db : StayDB) (res : StayResult)
    (hguard : ∀ ex, db.settlements.head? = some ex → 5 ≤ now - ex.created_at) :
    (∀ s : Step, s = Step.insertSummary ∨ s = Step.insertDetails ∨ s = Step.commitA →
       record_stay_settlement now db res (some s) = (none, db)) ∧
    (∀ s : Step, s = Step.carryLog ∨ s = Step.archiveCopy ∨ s = Step.archiveClear ∨
        s = Step.commitB →
       (record_stay_settlement now db res (some s)).1 = none ∧
       (record_stay_settlement now db res (some s)).2.settlements.length
         = db.settlements.length + 1 ∧
       (record_stay_settlement now db res (some s)).2.archive = db.archive ∧
       (record_stay_settlement now db res (some s)).2.txns = db.txns) := by
  constructor
  · intro s hs
    rw [record_eq_go _ _ _ _ hguard]
    rcases hs with h | h | h <;> subst h <;> simp +decide [recordStayGo, fails]
  · intro s hs
    rw [record_eq_go _ _ _ _ hguard]
    rcases hs with h | h | h | h <;> subst h <;>
      by_cases hc : db.nextId ∈ db.history <;>
      simp +decide [recordStayGo, fails, hc]

def c1wdb : StayDB := ⟨[], [⟨3, 4, 7⟩], [], [], [], 1⟩

def c1wres : StayResult := ⟨0, 1, 0, 1, 0, [⟨1, "A", 1, 0, 0, 0, 0, 0⟩], false, none, []⟩

theorem c1_amended_witness :
    record_stay_settlement 9 c1wdb c1wres (some Step.insertSummary) = (none, c1wdb) ∧
    (record_stay_settlement 9 c1wdb c1wres (some Step.archiveClear)).2.settlements.length
      = c1wdb.settlements.length + 1 ∧
    (record_stay_settlement 9 c1wdb c1wres (some Step.archiveClear)).2.archive
      = c1wdb.archive := by
  have hguard : ∀ ex, c1wdb.settlements.head? = some ex → 5 ≤ 9 - ex.created_at := by
    intro ex hex
    simp [c1wdb] at hex
  refine ⟨(c1_amended 9 c1wdb c1wres hguard).1 Step.insertSummary (Or.inl rfl), ?_, ?_⟩
  · exact ((c1_amended 9 c1wdb c1wres hguard).2 Step.archiveClear
      (Or.inr (Or.inr (Or.inl rfl)))).2.1
  · exact ((c1_amended 9 c1wdb c1wres hguard).2 Step.archiveClear
      (Or.inr (Or.inr (Or.inl rfl)))).2.2.1

/- ===================== C5: the duplicate guard ===================== -/

/-- C5: a first finalize (with the guard clear) returns the fresh
settlement id, archives every active payment exactly once and clears the
active set; a second finalize issued within the 5-second window — whatever
it tries to record and wherever a failure might be injected — is a no-op
that returns the same settlement id and leaves the state, in particular
the archive, untouched. -/
theorem c5_duplicate_guard (now1 now2 : ℤ) (db : StayDB) (res res2 : StayResult)
    (failAt2 : Option Step)
    (hguard : ∀ ex, db.settlements.head? = some ex → 5 ≤ now1 - ex.created_at)
    (hwin : now2 - now1 < 5) :
    (record_stay_settlement now1 db res none).1 = some db.nextId ∧
    (record_stay_settlement now1 db res none).2.txns = [] ∧
    (record_stay_settlement now1 db res none).2.archive
      = db.archive ++ db.txns.map (fun t => (db.nextId, t)) ∧
    record_stay_settlement now2 (record_stay_settlement now1 db res none).2 res2 failAt2
      = (some db.nextId, (record_stay_settlement now1 db res none).2) := by
  have h1 : record_stay_settlement now1 db res none = recordStayGo now1 db res none :=
    record_eq_go now1 db res none hguard
  rw [h1, recordStayGo_none]
  refine ⟨rfl, rfl, rfl, ?_⟩
  rw [record_stay_settlement]
  unfold lastSettlement
  simp only [List.head?]
  rw [if_pos (by simpa using hwin)]

def c5db : StayDB := ⟨[], [⟨1, 2, 30⟩, ⟨2, 1, 10⟩], [], [], [], 4⟩

def c5res : StayResult := ⟨0, 1, 0, 2, 0, [⟨1, "A", 1, 0, 0, 0, 0, 0⟩], false, none, []⟩

theorem c5_duplicate_guard_witness :
    (record_stay_settlement 100 c5db c5res none).1 = some 4 ∧
    (record_stay_settlement 100 c5db c5res none).2.archive
      = [(4, ⟨1, 2, 30⟩), (4, ⟨2, 1, 10⟩)] ∧
    record_stay_settlement 103 (record_stay_settlement 100 c5db c5res none).2 c5res
        (some Step.archiveCopy)
      = (some 4, (record_stay_settlement 100 c5db c5res none).2) := by
  have hguard : ∀ ex, c5db.settlements.head? = some ex → 5 ≤ 100 - ex.created_at := by
    intro ex hex
    simp [c5db] at hex
  have h := c5_duplicate_guard 100 103 c5db c5res c5res (some Step.archiveCopy) hguard
    (by norm_num)
  refine ⟨h.1, ?_, h.2.2.2⟩
  rw [h.2.2.1]
  rfl

/- ===================== C7: debt minimizer bounds ===================== -/

/-- The number of creditors with a strictly positive remaining balance:
only these can still receive a payment in the TRIP greedy loop. -/
def aliveCount : List Party → ℕ
  | [] => 0
  | c :: cs => (if 0 < c.bal then 1 else 0) + aliveCount cs

theorem aliveCount_cons (c : Party) (cs : List Party) :
    aliveCount (c :: cs) = (if 0 < c.bal then 1 else 0) + aliveCount cs := rfl

theorem aliveCount_le_length (cs : List Party) : aliveCount cs ≤ cs.length := by
  induction cs with
  | nil => simp [aliveCount]
  | cons c rest ih =>
    rw [aliveCount_cons, List.length_cons]
    split <;> omega

theorem aliveCount_eq_length (cs : List Party) (h : ∀ c ∈ cs, 0 < c.bal) :
    aliveCount cs = cs.length := by
  induction cs with
  | nil => rfl
  | cons c rest ih =>
    rw [aliveCount_cons, List.length_cons, if_pos (h c (List.mem_cons_self c rest)),
      ih (fun x hx => h x (List.mem_cons_of_mem c hx))]
    omega

theorem tripInner_nonpos (dname : String) (owed : ℚ) (cs : List Party) (h : owed ≤ 0) :
    tripInner dname owed cs = ([], cs) := by
  cases cs with
  | nil => rfl
  | cons c rest => simp [tripInner, if_pos h]

/-- Per-debtor accounting for the TRIP inner loop: each emitted payment
either kills a creditor (drives its balance to zero) or is the debtor's
last (the loop breaks right after), so the emission count is bounded by
the creditors killed plus one; and when the bound is attained the final
payment left its creditor alive. -/
theorem tripInner_bound (dname : String) (cs : List Party) : ∀ owed : ℚ,
    (tripInner dname owed cs).1.length + aliveCount (tripInner dname owed cs).2
      ≤ aliveCount cs + 1 ∧
    ((tripInner dname owed cs).1.length + aliveCount (tripInner dname owed cs).2
        = aliveCount cs + 1 → 1 ≤ aliveCount (tripInner dname owed cs).2) := by
  induction cs with
  | nil =>
    intro owed
    simp [tripInner, aliveCount]
  | cons c rest ih =>
    intro owed
    by_cases h1 : owed ≤ 0
    · rw [tripInner_nonpos dname owed _ h1]
      constructor
      · simp
      · intro he
        simp at he
    · by_cases h2 : c.bal ≤ 0
      · have hb : tripInner dname owed (c :: rest)
            = ((tripInner dname owed rest).1, c :: (tripInner dname owed rest).2) := by
          simp [tripInner, if_neg h1, if_pos h2]
        rw [hb]
        have hdead : (if 0 < c.bal then 1 else 0) = 0 := by
          rw [if_neg (not_lt.mpr h2)]
        rcases ih owed with ⟨ih1, ih2⟩
        constructor
        · simp only [aliveCount_cons, hdead]
          omega
        · intro he
          simp only [aliveCount_cons, hdead] at he ⊢
          have := ih2 (by omega)
          omega
      · have hpos1 : 0 < owed := not_le.mp h1
        have hpos2 : 0 < c.bal := not_le.mp h2
        have hpay : 0 < min owed c.bal := lt_min hpos1 hpos2
        by_cases h3 : c.bal ≤ owed
        · -- the payment kills the creditor
          have hb : tripInner dname owed (c :: rest)
              = (⟨dname, c.name, pyRound (min owed c.bal)⟩
                   :: (tripInner dname (owed - min owed c.bal) rest).1,
                 ⟨c.name, c.bal - min owed c.bal⟩
                   :: (tripInner dname (owed - min owed c.bal) rest).2) := by
            rw [tripInner, if_neg h1, if_neg h2]
            dsimp only
            rw [if_neg (not_le.mpr hpay)]
          rw [hb]
          have hdied : (if 0 < (Party.mk c.name (c.bal - min owed c.bal)).bal then 1 else 0)
              = 0 := by
            rw [min_eq_right h3]
            simp
          rcases ih (owed - min owed c.bal) with ⟨ih1, ih2⟩
          constructor
          · simp only [List.length_cons, aliveCount_cons, hdied,
              if_pos hpos2]
            omega
          · intro he
            simp only [List.length_cons, aliveCount_cons, hdied, if_pos hpos2] at he ⊢
            have := ih2 (by omega)
            omega
        · -- the payment exhausts the debtor; the creditor survives
          have hlt : owed < c.bal := not_le.mp h3
          have hmin : min owed c.bal = owed := min_eq_left (le_of_lt hlt)
          have hb : tripInner dname owed (c :: rest)
              = (⟨dname, c.name, pyRound (min owed c.bal)⟩
                   :: (tripInner dname (owed - min owed c.bal) rest).1,
                 ⟨c.name, c.bal - min owed c.bal⟩
                   :: (tripInner dname (owed - min owed c.bal) rest).2) := by
            rw [tripInner, if_neg h1, if_neg h2]
            dsimp only
            rw [if_neg (not_le.mpr hpay)]
          rw [hb, hmin, tripInner_nonpos dname (owed - owed) rest (by simp)]
          have halive : (if 0 < (Party.mk c.name (c.bal - owed)).bal then 1 else 0) = 1 := by
            rw [if_pos]
            simp only
            linarith
          constructor
          · simp only [List.length_cons, List.length_nil, aliveCount_cons, halive,
              if_pos hpos2]
            omega
          · intro he
            simp only [aliveCount_cons, halive]
            omega

/-- Whole-run accounting for the TRIP greedy matching: emissions plus the
creditors left alive never exceed the initially alive creditors plus the
number of debtors, and attaining that bound forces a creditor to be left
alive (or no debtor at all). -/
theorem tripOuter_bound (ds : List Party) : ∀ cs : List Party,
    (tripOuter ds cs).1.length + aliveCount (tripOuter ds cs).2
      ≤ aliveCount cs + ds.length ∧
    ((tripOuter ds cs).1.length + aliveCount (tripOuter ds cs).2
        = aliveCount cs + ds.length →
      (ds = [] ∨ 1 ≤ aliveCount (tripOuter ds cs).2)) := by
  induction ds with
  | nil =>
    intro cs
    simp [tripOuter]
  | cons d ds ih =>
    intro cs
    have hb : tripOuter (d :: ds) cs
        = ((tripInner d.name d.bal cs).1 ++ (tripOuter ds (tripInner d.name d.bal cs).2).1,
           (tripOuter ds (tripInner d.name d.bal cs).2).2) := by
      simp [tripOuter]
    rw [hb]
    rcases tripInner_bound d.name cs d.bal with ⟨hI1, hI2⟩
    rcases ih (tripInner d.name d.bal cs).2 with ⟨hO1, hO2⟩
    constructor
    · simp only [List.length_append, List.length_cons]
      omega
    · intro he
      simp only [List.length_append, List.length_cons] at he
      have e2 : (tripOuter ds (tripInner d.name d.bal cs).2).1.length
          + aliveCount (tripOuter ds (tripInner d.name d.bal cs).2).2
          = aliveCount (tripInner d.name d.bal cs).2 + ds.length := by omega
      have e1 : (tripInner d.name d.bal cs).1.length
          + aliveCount (tripInner d.name d.bal cs).2 = aliveCount cs + 1 := by omega
      rcases hO2 e2 with hds | hge
      · right
        subst hds
        simp only [tripOuter]
        exact hI2 e1
      · right
        exact hge

/-- The TRIP debt minimizer emits at most (alive creditors + debtors − 1)
suggestions. -/
theorem tripOuter_length (ds cs : List Party) :
    (tripOuter ds cs).1.length ≤ aliveCount cs + ds.length - 1 := by
  rcases tripOuter_bound ds cs with ⟨h1, h2⟩
  by_cases he : (tripOuter ds cs).1.length + aliveCount (tripOuter ds cs).2
      = aliveCount cs + ds.length
  · rcases h2 he with hds | hge
    · subst hds
      simp [tripOuter]
  -- with no debtor nothing is emitted
    · omega
  · omega

theorem length_filter_disjoint {α : Type} (p q : α → Bool) (l : List α)
    (h : ∀ x ∈ l, p x = true → q x = false) :
    (l.filter p).length + (l.filter q).length ≤ l.length := by
  induction l with
  | nil => simp
  | cons a t ih =>
    have iht := ih (fun x hx => h x (List.mem_cons_of_mem a hx))
    rw [List.filter_cons, List.filter_cons]
    by_cases hp : p a = true
    · rw [if_pos hp, if_neg (by rw [h a (List.mem_cons_self a t) hp]; simp)]
      simp only [List.length_cons]
      omega
    · rw [if_neg hp]
      split <;> simp only [List.length_cons] <;> omega

theorem tripTransactions_length (inp : TripInput) :
    (tripTransactions inp).length ≤ inp.families.length - 1 := by
  have h1 := tripOuter_length (tripDebtors inp) (tripCreditors inp)
  have h2 : aliveCount (tripCreditors inp) = (tripCreditors inp).length := by
    refine aliveCount_eq_length _ ?_
    intro c hc
    rcases List.mem_map.mp hc with ⟨f, hf, rfl⟩
    have := (List.mem_filter.mp hf).2
    have hgt : (1/2 : ℚ) < tripAdjusted inp f := of_decide_eq_true this
    linarith
  have h3 : (tripCreditors inp).length + (tripDebtors inp).length
      ≤ inp.families.length := by
    rw [tripCreditors, tripDebtors, List.length_map, List.length_map]
    refine length_filter_disjoint _ _ _ ?_
    intro f hf hp
    have hgt : (1/2 : ℚ) < tripAdjusted inp f := of_decide_eq_true hp
    rw [decide_eq_false_iff_not]
    linarith
  rw [tripTransactions]
  omega

theorem subtractFromFirstMax_length (m tot : ℚ) (rs : List StayFamilyRes) :
    (subtractFromFirstMax m tot rs).length = rs.length := by
  induction rs with
  | nil => rfl
  | cons a rest ih =>
    rw [subtractFromFirstMax]
    split <;> simp [ih]

theorem stayResults_length (inp : StayInput) :
    (stayResults inp).length = inp.families.length := by
  rw [stayResults, applyZeroSumCorrection]
  split
  · rw [subtractFromFirstMax_length, stayResultsPre, List.length_map]
  · rw [stayResultsPre, List.length_map]

theorem insertDesc_length (x : Party) (l : List Party) :
    (insertDesc x l).length = l.length + 1 := by
  induction l with
  | nil => rfl
  | cons y ys ih =>
    rw [insertDesc]
    split <;> simp [ih]

theorem sortDesc_length (l : List Party) : (sortDesc l).length = l.length := by
  induction l with
  | nil => rfl
  | cons x xs ih => rw [sortDesc, insertDesc_length, ih, List.length_cons]

theorem insertAsc_length (x : Party) (l : List Party) :
    (insertAsc x l).length = l.length + 1 := by
  induction l with
  | nil => rfl
  | cons y ys ih =>
    rw [insertAsc]
    split <;> simp [ih]

theorem sortAsc_length (l : List Party) : (sortAsc l).length = l.length := by
  induction l with
  | nil => rfl
  | cons x xs ih => rw [sortAsc, insertAsc_length, ih, List.length_cons]

/-- Every iteration of the STAY greedy loop advances `ci + di` by at least
one (the side whose rounded balance was fully transferred ends within
`0.005 < 0.01` of zero, so its pointer moves), and emits at most one
suggestion; since the loop runs only while `ci < |creditors|` and
`di < |debtors|`, at most `|creditors| + |debtors| − 1` suggestions are
ever emitted, regardless of fuel. -/
theorem stayLoop_length_le : ∀ (fuel : ℕ) (cs ds : List Party) (ci di : ℕ)
    (acc : List Suggestion),
    (stayLoop fuel cs ds ci di acc).length
      ≤ acc.length + (cs.length + ds.length - (ci + di) - 1) := by
  intro fuel
  induction fuel with
  | zero =>
    intro cs ds ci di acc
    simp [stayLoop]
  | succ fuel ih =>
    intro cs ds ci di acc
    rw [stayLoop]
    split
    case isTrue h =>
      dsimp only
      split
      case isTrue h2 =>
        have := ih cs ds (ci + 1) di acc
        omega
      case isFalse h2 =>
        split
        case isTrue h3 =>
          have := ih cs ds ci (di + 1) acc
          omega
        case isFalse h3 =>
          set c := cs.get ⟨ci, h.1⟩ with hc
          set d := ds.get ⟨di, h.2⟩ with hd
          set pay := min (pyRound2 c.bal) (-pyRound2 d.bal) with hpaydef
          have hadv : |c.bal - pay| < 1/100 ∨ |d.bal + pay| < 1/100 := by
            rcases le_total (pyRound2 c.bal) (-pyRound2 d.bal) with hle | hle
            · left
              rw [hpaydef, min_eq_left hle]
              have hr := abs_pyRound2_sub_le c.bal
              rw [abs_sub_comm] at hr
              linarith
            · right
              rw [hpaydef, min_eq_right hle, ← sub_eq_add_neg]
              have hr := abs_pyRound2_sub_le d.bal
              rw [abs_sub_comm] at hr
              linarith
          have hacc : (if 1/100 < pay
              then acc ++ [⟨d.name, c.name, pyRound pay⟩] else acc).length
              ≤ acc.length + 1 := by
            split <;> simp
          have hlen1 : (cs.set ci ⟨c.name, c.bal - pay⟩).length = cs.length :=
            List.length_set cs ci _
          have hlen2 : (ds.set di ⟨d.name, d.bal + pay⟩).length = ds.length :=
            List.length_set ds di _
          by_cases ha : |c.bal - pay| < 1/100 <;> by_cases hb2 : |d.bal + pay| < 1/100
          · rw [if_pos ha, if_pos hb2]
            have := ih (cs.set ci ⟨c.name, c.bal - pay⟩) (ds.set di ⟨d.name, d.bal + pay⟩)
              (ci + 1) (di + 1) (if 1/100 < pay
                then acc ++ [⟨d.name, c.name, pyRound pay⟩] else acc)
            omega
          · rw [if_pos ha, if_neg hb2]
            have := ih (cs.set ci ⟨c.name, c.bal - pay⟩) (ds.set di ⟨d.name, d.bal + pay⟩)
              (ci + 1) di (if 1/100 < pay
                then acc ++ [⟨d.name, c.name, pyRound pay⟩] else acc)
            omega
          · rw [if_neg ha, if_pos hb2]
            have := ih (cs.set ci ⟨c.name, c.bal - pay⟩) (ds.set di ⟨d.name, d.bal + pay⟩)
              ci (di + 1) (if 1/100 < pay
                then acc ++ [⟨d.name, c.name, pyRound pay⟩] else acc)
            omega
          · rcases hadv with hx | hx
            · exact absurd hx ha
            · exact absurd hx hb2
    case isFalse h =>
      simp

theorem staySuggested_length (rs : List StayFamilyRes) :
    (staySuggested rs).length ≤ rs.length - 1 := by
  have h := stayLoop_length_le ((stayCreditors rs).length + (stayDebtors rs).length)
    (stayCreditors rs) (stayDebtors rs) 0 0 []
  have h2 : (stayCreditors rs).length + (stayDebtors rs).length ≤ rs.length := by
    rw [stayCreditors, stayDebtors, sortDesc_length, sortAsc_length, List.length_map,
      List.length_map]
    refine length_filter_disjoint _ _ _ ?_
    intro r hr hp
    have hgt : (1/100 : ℚ) < r.adjusted_balance := of_decide_eq_true hp
    rw [decide_eq_false_iff_not]
    linarith
  rw [staySuggested]
  simp only [List.length_nil] at h
  omega

/-- C7 (amended): in both modes the debt minimizer emits at most `N − 1`
suggested transfers for `N` participants.  The claim's second half does
not survive the code (see the counterexample): emitted amounts are rounded
to whole currency units and participants inside the mode's threshold
(`0.5` in TRIP, `0.01` in STAY) are skipped entirely, so the suggested
transfers need not cancel each participant's adjusted balance to within
epsilon. -/
theorem c7_amended (tinp : TripInput) (sinp : StayInput) :
    (tripTransactions tinp).length ≤ tinp.families.length - 1 ∧
    (calculate_stay_settlement sinp).suggested.length ≤ sinp.families.length - 1 := by
  refine ⟨tripTransactions_length tinp, ?_⟩
  have h1 : (calculate_stay_settlement sinp).suggested = staySuggested (stayResults sinp) :=
    rfl
  have h2 := staySuggested_length (stayResults sinp)
  have h3 : (stayResults sinp).length = sinp.families.length := stayResults_length sinp
  rw [h1]
  omega

/-- Net amount moved out of (positive) or into (negative) a participant by
the suggested transfers. -/
def suggestionNet (sug : List Suggestion) (name : String) : ℚ :=
  ((sug.filter (fun s => decide (s.src = name))).map (fun s => (s.amount : ℚ))).sum
  - ((sug.filter (fun s => decide (s.dst = name))).map (fun s => (s.amount : ℚ))).sum

def c7tinp : TripInput := ⟨[⟨1, "A", 1⟩, ⟨2, "B", 1⟩], [⟨1, 4/5, 1, 1⟩], [], []⟩

/-- C7 counterexample: the claim also asserts that, for each participant,
the suggested transfers exactly cancel the adjusted balance (drive it to
within epsilon of zero).  With two families and adjusted balances
`(0.4, -0.4)` the TRIP minimizer emits no transfers at all — both sit
inside the `±0.5` cutoffs — so family A is left with `0.4`, forty times
epsilon away from zero. -/
theorem c7_counterexample :
    tripTransactions c7tinp = [] ∧
    tripAdjusted c7tinp ⟨1, "A", 1⟩ = 2/5 ∧
    ¬(|tripAdjusted c7tinp ⟨1, "A", 1⟩ - suggestionNet (tripTransactions c7tinp) "A"|
        ≤ 1/100) := by
  have h1 : tripAdjusted c7tinp ⟨1, "A", 1⟩ = 2/5 := by
    norm_num [tripAdjusted, tripNet, tripPaid, tripPerHead, tripTotalExpense,
      tripTotalMembers, tripAdvance, tripTxnAdjust, familyIds, List.filter, c7tinp]
  have h2 : tripTransactions c7tinp = [] := by
    norm_num [tripTransactions, tripDebtors, tripCreditors, tripOuter, tripAdjusted, tripNet,
      tripPaid, tripPerHead, tripTotalExpense, tripTotalMembers, tripAdvance, tripTxnAdjust,
      familyIds, List.filter, c7tinp]
  refine ⟨h2, h1, ?_⟩
  rw [h1, h2]
  norm_num [suggestionNet, List.filter, abs_of_nonneg]

/- ===================== C8: carry-forward round trip ===================== -/

/-- C8 (amended): with a prior settlement, the created_at period branch,
no cost entry created after the prior finalize and no active payment, the
recomputation is a pure carry-forward on the net level: the baseline read
for a participant is exactly the prior Settlement's stored
`adjusted_balance`, and every participant's new `net_balance` equals that
baseline, with `adjusted_balance = net_balance` — provided the stored
balances sum to within `0.01`.  (When the stored whole-unit-rounded
balances drift beyond `0.01` in total, the zero-sum correction shifts the
residual onto the largest-magnitude participant and the last equality
fails for it; see the counterexample.) -/
theorem c8_amended (inp : StayInput) (p : StoredSettlement)
    (h1 : lastSettlement inp.db = some p)
    (h2 : inp.hasCreatedAt = true)
    (h3 : ∀ e ∈ inp.expenses, e.created_at ≤ p.created_at)
    (h4 : inp.db.txns = []) :
    (∀ (f : ℤ) (d : SettlementDetail),
      p.details.find? (fun x => decide (x.family_id = f)) = some d →
      carryForwardBalance (some p) f = d.adjusted_balance) ∧
    (∀ f ∈ inp.families,
      (stayFamilyRes inp f).balance = carryForwardBalance (some p) f.id ∧
      (stayFamilyRes inp f).adjusted_balance = (stayFamilyRes inp f).balance) ∧
    (|adjSum (stayResultsPre inp)| ≤ 1/100 →
      ∀ r ∈ stayResults inp, r.adjusted_balance = r.balance) := by
  have hper : stayPeriodExpenses inp = [] := by
    rw [stayPeriodExpenses, List.filter_eq_nil_iff]
    intro e he
    rw [h1, expenseInPeriod, h2]
    simp only [if_true, decide_eq_true_eq]
    have := h3 e he
    omega
  have htot : stayTotalExpense inp = 0 := by
    rw [stayTotalExpense, hper]
    rfl
  have hph : stayPerHead inp = 0 := by
    rw [stayPerHead, htot, zero_div]
  have hsp : ∀ fid, staySpent inp fid = 0 := by
    intro fid
    rw [staySpent, hper]
    rfl
  have hadj0 : ∀ fid, stayAdjustment inp fid = 0 := by
    intro fid
    rw [stayAdjustment, h4]
    simp
  have hfam : ∀ f : Family,
      (stayFamilyRes inp f).balance = carryForwardBalance (some p) f.id ∧
      (stayFamilyRes inp f).adjusted_balance = (stayFamilyRes inp f).balance := by
    intro f
    rw [stayFamilyRes]
    simp only [hsp, hph, hadj0, h1, zero_mul, sub_zero, add_zero]
    norm_num
  refine ⟨?_, fun f _ => hfam f, ?_⟩
  · intro f d hfd
    rw [carryForwardBalance, hfd]
  · intro hle r hr
    rw [stayResults, applyZeroSumCorrection, if_neg (not_lt.mpr hle)] at hr
    rcases List.mem_map.mp hr with ⟨f, _, rfl⟩
    exact (hfam f).2

def c8wprev : StoredSettlement := ⟨1, 0, 2, 0, 0, 9, 50, [⟨1, 3, 3⟩, ⟨2, -3, -3⟩]⟩

def c8winp : StayInput :=
  ⟨[⟨1, "A", 1⟩, ⟨2, "B", 1⟩], [⟨1, 5, 1, 10⟩], ⟨[c8wprev], [], [], [], [], 2⟩, true, 20⟩

theorem c8_amended_witness :
    ((stayFamilyRes c8winp ⟨1, "A", 1⟩).balance = carryForwardBalance (some c8wprev) 1 ∧
     (stayFamilyRes c8winp ⟨1, "A", 1⟩).adjusted_balance
       = (stayFamilyRes c8winp ⟨1, "A", 1⟩).balance) ∧
    carryForwardBalance (some c8wprev) 1 = (3 : ℚ) ∧
    (stayFamilyRes c8winp ⟨2, "B", 1⟩).adjusted_balance
      = (stayFamilyRes c8winp ⟨2, "B", 1⟩).balance := by
  have h := c8_amended c8winp c8wprev rfl rfl
    (by
      intro e he
      simp only [c8winp, List.mem_singleton] at he
      subst he
      norm_num [c8wprev])
    rfl
  have hle : |adjSum (stayResultsPre c8winp)| ≤ 1/100 := by
    norm_num [stayResultsPre, stayFamilyRes, staySpent, stayPeriodExpenses, expenseInPeriod,
      lastSettlement, stayTotalExpense, stayTotalMembers, stayPerHead, carryForwardBalance,
      stayAdjustment, adjSum, List.filter, List.find?, abs_of_nonneg, abs_of_nonpos,
      c8winp, c8wprev]
  have hmem : stayFamilyRes c8winp ⟨2, "B", 1⟩ ∈ stayResults c8winp := by
    rw [stayResults, applyZeroSumCorrection, if_neg (not_lt.mpr hle)]
    exact List.mem_map_of_mem _ (by simp [c8winp])
  refine ⟨h.2.1 ⟨1, "A", 1⟩ (by simp [c8winp]), ?_, h.2.2 hle _ hmem⟩
  exact h.1 1 ⟨1, 3, 3⟩ (by norm_num [c8wprev, List.find?])

/- The round-trip counterexample: three one-member families, period-1
expenses 1.2 + 1.2, finalize, then recompute with zero new entries. -/

def c8db0 : StayDB := ⟨[], [], [], [], [], 1⟩

def c8fams : List Family := [⟨1, "A", 1⟩, ⟨2, "B", 1⟩, ⟨3, "C", 1⟩]

def c8exps : List Expense := [⟨1, 6/5, 1, 1⟩, ⟨2, 6/5, 1, 1⟩]

def c8inp1 : StayInput := ⟨c8fams, c8exps, c8db0, true, 10⟩

def c8res1 : StayResult := calculate_stay_settlement c8inp1

def c8db1 : StayDB := (record_stay_settlement 100 c8db0 c8res1 none).2

def c8inp2 : StayInput := ⟨c8fams, c8exps, c8db1, true, 20⟩

theorem c8_stayResults_inp1 :
    stayResults c8inp1 =
      [⟨1, "A", 1, 6/5, 4/5, 0, 2/5, 2/5⟩, ⟨2, "B", 1, 6/5, 4/5, 0, 2/5, 2/5⟩,
       ⟨3, "C", 1, 0, 4/5, 0, -4/5, -4/5⟩] := by
  norm_num [stayResults, applyZeroSumCorrection, stayResultsPre, stayFamilyRes, staySpent,
    stayPeriodExpenses, expenseInPeriod, lastSettlement, stayTotalExpense, stayTotalMembers,
    stayPerHead, carryForwardBalance, stayAdjustment, adjSum, stayMaxAbs, subtractFromFirstMax,
    List.filter, List.find?, abs_of_nonneg, abs_of_nonpos, c8inp1, c8fams, c8exps, c8db0]

theorem c8_res1_families :
    c8res1.families =
      [⟨1, "A", 1, 1, 1, 0, 0, 0⟩, ⟨2, "B", 1, 1, 1, 0, 0, 0⟩,
       ⟨3, "C", 1, 0, 1, 0, -1, -1⟩] := by
  show (stayResults c8inp1).map roundFamilyOut = _
  rw [c8_stayResults_inp1]
  norm_num [roundFamilyOut, pyRound, round_eq]

theorem c8_db1 :
    c8db1 = ⟨[⟨1, 2, 3, 1, 10, 10, 100, [⟨1, 0, 0⟩, ⟨2, 0, 0⟩, ⟨3, -1, -1⟩]⟩], [], [],
      [⟨none, 1, 1, 0, 0, 0⟩, ⟨none, 1, 2, 0, 0, 0⟩, ⟨none, 1, 3, 0, -1, -1⟩], [1], 2⟩ := by
  show (record_stay_settlement 100 c8db0 c8res1 none).2 = _
  rw [record_eq_go _ _ _ _ (by intro ex hex; simp [c8db0] at hex), recordStayGo_none]
  have hte : c8res1.total_expense = 2 := by
    show pyRound (stayTotalExpense c8inp1) = 2
    norm_num [stayTotalExpense, stayPeriodExpenses, expenseInPeriod, lastSettlement,
      List.filter, pyRound, round_eq, c8inp1, c8exps, c8db0]
  have hm : c8res1.total_members = 3 := by
    show stayTotalMembers c8inp1 = 3
    norm_num [stayTotalMembers, c8inp1, c8fams]
  have hph : c8res1.per_head_cost = 1 := by
    show pyRound (stayPerHead c8inp1) = 1
    norm_num [stayPerHead, stayTotalExpense, stayTotalMembers, stayPeriodExpenses,
      expenseInPeriod, lastSettlement, List.filter, pyRound, round_eq, c8inp1, c8fams,
      c8exps, c8db0]
  have hprev : c8res1.previous_settlement_id = none := rfl
  have hps : c8res1.period_start = 10 := rfl
  have hpe : c8res1.period_end = 10 := rfl
  rw [StayDB.mk.injEq]
  refine ⟨?_, rfl, rfl, ?_, ?_, rfl⟩
  · rw [c8_res1_families, hte, hm, hph, hps, hpe]
    norm_num [storedDetail_eq, c8db0]
  · rw [c8_res1_families, hprev]
    norm_num [carryRows, storedDetail_eq, c8db0, List.filter]
  · norm_num [c8db0, List.contains]

/-- C8 counterexample: the claim's round trip — finalize, then recompute
with zero new cost entries and no payments — promises
`net_balance = previous adjusted_balance = adjusted_balance` for every
participant.  Period 1 here ends with computed adjusted balances
`(0.4, 0.4, -0.8)`; the calculator rounds its output to whole units, so
the Settlement stores `(0, 0, -1)`.  The recomputation carries those
forward as net balances — but they now sum to `-1`, beyond epsilon, so the
zero-sum correction fires and family C ends with `net_balance = -1` yet
`adjusted_balance = 0`: the claimed equality fails. -/
theorem c8_counterexample :
    (stayResults c8inp2).map (fun r => (r.balance, r.adjusted_balance))
      = [(0, 0), (0, 0), (-1, 0)] ∧ ((-1 : ℚ) ≠ 0) := by
  constructor
  · norm_num [stayResults, applyZeroSumCorrection, stayResultsPre, stayFamilyRes, staySpent,
      stayPeriodExpenses, expenseInPeriod, lastSettlement, stayTotalExpense, stayTotalMembers,
      stayPerHead, carryForwardBalance, stayAdjustment, adjSum, stayMaxAbs,
      subtractFromFirstMax, List.filter, List.find?, abs_of_nonneg, abs_of_nonpos, c8inp2,
      c8fams, c8exps, c8_db1]
  · norm_num

end TripSettle
